import Mathlib

/-!
Verification of the Prioritization & Churn-Scoring Engine of the
product-research platform.

The development shallowly embeds the scoring code:

* `app/services/churn_calculator.py` (ChurnCalculator),
* `app/services/market_sizing.py` (MarketSizingEngine),
* `app/services/prioritization_service.py` (PrioritizationService).

Python floats are embedded as rationals (`ℚ`); every arithmetic operation
used by the code (addition, multiplication, `min`/`max`, comparison) is
exact on the concrete decimal constants involved, so the rational value
coincides with the float value at every branch the theorems touch.  The
one genuinely real-valued operation, `math.log10` in the final-score
blend, is embedded over `ℝ` with `Real.logb 10`.  Strings are embedded as
Lean `String`s; Python's `str.lower`/`str.split()` are re-implemented
structurally (`toLowerStr`, `splitWords`) so that concrete runs reduce in
the kernel.
-/

/-! ## String helpers shared by the embedded services -/

/-- Embedding of Python `str.lower()` (ASCII case folding, which is all the
source vocabulary uses). -/
def toLowerStr (s : String) : String := String.mk (s.data.map Char.toLower)

/-- Embedding of Python's substring test `needle in hay`. -/
def strContainsSub (hay needle : String) : Bool :=
  decide (needle.data <:+: hay.data)

/-- Helper for `splitWords`: walk the characters, accumulating the current
word (reversed) and cutting at whitespace runs. -/
def splitWsAux : List Char → List Char → List String
  | acc, [] => if acc.isEmpty then [] else [String.mk acc.reverse]
  | acc, c :: cs =>
    if c.isWhitespace then
      if acc.isEmpty then splitWsAux [] cs else String.mk acc.reverse :: splitWsAux [] cs
    else splitWsAux (c :: acc) cs

/-- Embedding of Python `str.split()` with no separator: split on runs of
whitespace, dropping empty pieces. -/
def splitWords (s : String) : List String := splitWsAux [] s.data

/-! ## Churn Calculator (`app/services/churn_calculator.py`)

`calculate_churn` is a pure function of the virtual user, the list of
frustration events, the context mapping and the externally supplied
adjustment.  A Python context dict with a missing key behaves exactly like
one carrying that key's documented default, so the context is embedded as
a structure holding those values. -/

/-- `PatienceLevel` enum from `app/models/user_profile.py`. -/
inductive PatienceLevel where
  | low
  | medium
  | high
deriving DecidableEq

/-- `FrustrationTrigger` model (the `threshold` field is not read by
`ChurnCalculator.calculate_churn`). -/
structure FrustrationTrigger where
  trigger : String
  threshold : ℚ
  impact : ℚ
deriving DecidableEq

/-- The fields of `VirtualUser` that `ChurnCalculator` reads. -/
structure VirtualUser where
  base_churn_risk : ℚ
  patience_level : PatienceLevel
  frustration_triggers : List FrustrationTrigger
deriving DecidableEq

/-- One entry of the `frustration_events` list: `event.get("event", "")`
and `event.get("severity", 1.0)`. -/
structure FrustrationEvent where
  event : String
  severity : ℚ
deriving DecidableEq

/-- The context keys read by `ChurnCalculator._parse_ai_adjustments`,
with each field holding the `dict.get` default when the caller omitted
the key: `time_invested_seconds` 0, `urgency` "medium",
`alternatives_available` False, `failure_count` 1. -/
structure ChurnContext where
  time_invested_seconds : ℚ
  urgency : String
  alternatives_available : Bool
  failure_count : ℤ
deriving DecidableEq

/-- `ChurnAnalysis` output model (the free-text `reasoning` field is not
modelled; event and adjustment breakdowns are name/value pairs). -/
structure ChurnAnalysis where
  base_risk : ℚ
  frustration_events : List (String × ℚ)
  formula_risk : ℚ
  patience_multiplier : ℚ
  calculated_risk : ℚ
  ai_adjustments : List (String × ℚ)
  final_churn_probability : ℚ
  risk_level : String
deriving DecidableEq

/-- `ChurnCalculator.FRUSTRATION_WEIGHTS` as a total lookup,
`FRUSTRATION_WEIGHTS.get(event_name, 15)`. -/
def FRUSTRATION_WEIGHTS (event_name : String) : ℚ :=
  if event_name = "long_wait" then 30
  else if event_name = "feature_unavailable" then 25
  else if event_name = "error_encountered" then 20
  else if event_name = "retry_required" then 10
  else if event_name = "unexpected_cost" then 15
  else if event_name = "poor_quality" then 20
  else if event_name = "lack_of_feedback" then 10
  else if event_name = "driver_cancellation" then 25
  else if event_name = "no_availability" then 30
  else if event_name = "redirect_failure" then 20
  else if event_name = "slow_response" then 15
  else if event_name = "payment_failure" then 35
  else if event_name = "data_loss" then 40
  else if event_name = "security_concern" then 50
  else 15

/-- `ChurnCalculator.PATIENCE_MULTIPLIERS` (a total map over the enum, so
the `.get(..., 1.5)` default is unreachable). -/
def PATIENCE_MULTIPLIERS : PatienceLevel → ℚ
  | .low => 2
  | .medium => 1.5
  | .high => 1

/-- `ChurnCalculator._get_risk_level`: first `RISK_LEVELS` band
`(min_val, max_val, level)` with `min_val <= churn_probability <= max_val`
wins, falling back to `"CRITICAL"`. -/
def get_risk_level (churn_probability : ℚ) : String :=
  if 0 ≤ churn_probability ∧ churn_probability ≤ 30 then "LOW"
  else if 31 ≤ churn_probability ∧ churn_probability ≤ 50 then "MEDIUM"
  else if 51 ≤ churn_probability ∧ churn_probability ≤ 75 then "HIGH"
  else if 76 ≤ churn_probability ∧ churn_probability ≤ 100 then "CRITICAL"
  else "CRITICAL"

/-- `ChurnCalculator._parse_ai_adjustments`: the explainability
decomposition of the supplied total adjustment. -/
def parse_ai_adjustments (context : ChurnContext) (total_adjustment : ℚ) :
    List (String × ℚ) :=
  let adjustments : List (String × ℚ) := []
  let adjustments :=
    if 0 < context.time_invested_seconds then
      adjustments ++
        [("sunk_cost_effect", min (-10) (-(context.time_invested_seconds / 60) * 3))]
    else adjustments
  let adjustments :=
    if context.urgency = "high" then adjustments ++ [("high_urgency", -5)]
    else if context.urgency = "low" then adjustments ++ [("low_urgency", 10)]
    else adjustments
  let adjustments :=
    if context.alternatives_available then adjustments ++ [("easy_alternatives", 10)]
    else adjustments
  let adjustments :=
    if context.failure_count = 1 then adjustments ++ [("first_failure", -5)]
    else if 3 ≤ context.failure_count then adjustments ++ [("repeated_failures", 15)]
    else adjustments
  let accounted_adjustment := (adjustments.map Prod.snd).sum
  if 1 / 10 < |total_adjustment - accounted_adjustment| then
    adjustments ++ [("other_context", total_adjustment - accounted_adjustment)]
  else adjustments

/-- `ChurnCalculator.calculate_churn`: layer-1 formula risk, patience
multiplier, layer-2 supplied adjustment, `min(..., 100.0)` cap and risk
band lookup. -/
def calculate_churn (user : VirtualUser) (frustration_events : List FrustrationEvent)
    (context : ChurnContext) (ai_context_adjustment : ℚ) : ChurnAnalysis :=
  let base_risk := user.base_churn_risk
  let event_details :=
    frustration_events.map (fun e => (e.event, FRUSTRATION_WEIGHTS e.event * e.severity))
  let trigger_details :=
    (user.frustration_triggers.filter
        (fun t => frustration_events.any (fun e => e.event == t.trigger))).map
      (fun t => (t.trigger ++ "_user_specific", t.impact))
  let all_details := event_details ++ trigger_details
  let frustration_risk := (all_details.map Prod.snd).sum
  let formula_risk := base_risk + frustration_risk
  let patience_multiplier := PATIENCE_MULTIPLIERS user.patience_level
  let calculated_risk := formula_risk * patience_multiplier
  let final_churn := min (calculated_risk + ai_context_adjustment) 100
  { base_risk := base_risk
    frustration_events := all_details
    formula_risk := formula_risk
    patience_multiplier := patience_multiplier
    calculated_risk := calculated_risk
    ai_adjustments := parse_ai_adjustments context ai_context_adjustment
    final_churn_probability := final_churn
    risk_level := get_risk_level final_churn }

/-- The clamp the spec describes for the final churn probability. -/
def clampQ (x lo hi : ℚ) : ℚ := max lo (min x hi)

/-- A neutral context: every key at its `dict.get` default. -/
def neutralContext : ChurnContext :=
  { time_invested_seconds := 0
    urgency := "medium"
    alternatives_available := false
    failure_count := 1 }

/-- C1, counterexample: a patient user with the default base risk of 10,
no frustration events and a supplied adjustment of −50 ends with
`final_churn_probability = −40`: the code caps at 100 with `min` but never
floors at 0, so the result differs from `clamp(calculated + adjustment, 0, 100)`
and escapes `[0, 100]`. -/
theorem churn_final_negative_counterexample :
    (calculate_churn ⟨10, .high, []⟩ [] neutralContext (-50)).final_churn_probability = -40 ∧
    (calculate_churn ⟨10, .high, []⟩ [] neutralContext (-50)).final_churn_probability ≠
      clampQ ((calculate_churn ⟨10, .high, []⟩ [] neutralContext (-50)).calculated_risk + (-50))
        0 100 ∧
    (calculate_churn ⟨10, .high, []⟩ [] neutralContext (-50)).final_churn_probability < 0 := by
  refine ⟨?_, ?_, ?_⟩ <;>
    norm_num [calculate_churn, PATIENCE_MULTIPLIERS, clampQ]

/-- C1, amended: the final churn probability is `min(calculated_risk +
supplied_adjustment, 100)`; it is always ≤ 100 and it agrees with the
spec's `clamp(..., 0, 100)` whenever `calculated_risk + adjustment` is
nonnegative, but it can go below 0. -/
theorem churn_final_probability_capped (user : VirtualUser)
    (events : List FrustrationEvent) (context : ChurnContext) (adj : ℚ) :
    (calculate_churn user events context adj).final_churn_probability =
      min ((calculate_churn user events context adj).calculated_risk + adj) 100 ∧
    (calculate_churn user events context adj).final_churn_probability ≤ 100 ∧
    ((calculate_churn user events context adj).calculated_risk + adj < 0 ∨
      (calculate_churn user events context adj).final_churn_probability =
        clampQ ((calculate_churn user events context adj).calculated_risk + adj) 0 100) := by
  refine ⟨rfl, min_le_right _ _, ?_⟩
  rcases lt_or_le ((calculate_churn user events context adj).calculated_risk + adj) 0 with h | h
  · exact Or.inl h
  · refine Or.inr ?_
    show min _ 100 = clampQ _ 0 100
    exact (max_eq_right (le_min h (by norm_num))).symm

/-- C2: the risk bands in the code are the integer bands `[0,30]`,
`[31,50]`, `[51,75]`, `[76,100]`; any probability in a gap such as
`30.01 ∈ (30,31)` falls through every band and is reported `"CRITICAL"`,
not `"MEDIUM"` as the spec's band `(30,50]` requires. -/
theorem risk_level_gap_failing_input :
    get_risk_level (30.01 : ℚ) = "CRITICAL" ∧
    get_risk_level (30 : ℚ) = "LOW" ∧
    get_risk_level (50 : ℚ) = "MEDIUM" ∧
    get_risk_level (75 : ℚ) = "HIGH" ∧
    get_risk_level (100 : ℚ) = "CRITICAL" := by
  refine ⟨?_, ?_, ?_, ?_, ?_⟩ <;> norm_num [get_risk_level]

/-- C4: the sunk-cost adjustment the code computes is
`min(-10, -(t/60)*3)` — the `min`/`max` slip means one minute of invested
time yields −10 (not the −3 the "-3% per minute" comment and the spec
describe), and ten minutes yield −30, below the claimed floor of −10. -/
theorem sunk_cost_adjustment_failing_input :
    parse_ai_adjustments ⟨60, "medium", false, 2⟩ (-10) = [("sunk_cost_effect", -10)] ∧
    (-10 : ℚ) ≠ -(60 / 60) * 3 ∧
    parse_ai_adjustments ⟨600, "medium", false, 2⟩ (-30) = [("sunk_cost_effect", -30)] ∧
    (-30 : ℚ) < -10 := by
  have h1 : ("medium" : String) ≠ "high" := by decide
  have h2 : ("medium" : String) ≠ "low" := by decide
  refine ⟨?_, by norm_num, ?_, by norm_num⟩ <;>
    norm_num [parse_ai_adjustments, h1, h2]

/-- C6: the worked churn example: base risk 10, medium patience (×1.5),
one `long_wait` event of severity 1.0 (weight 30), supplied adjustment −10
⇒ formula risk 40, calculated risk 60, final probability 50, risk level
MEDIUM (upper band bound inclusive). -/
theorem churn_worked_example :
    (calculate_churn ⟨10, .medium, []⟩ [⟨"long_wait", 1⟩] neutralContext
        (-10)).formula_risk = 40 ∧
    (calculate_churn ⟨10, .medium, []⟩ [⟨"long_wait", 1⟩] neutralContext
        (-10)).calculated_risk = 60 ∧
    (calculate_churn ⟨10, .medium, []⟩ [⟨"long_wait", 1⟩] neutralContext
        (-10)).final_churn_probability = 50 ∧
    (calculate_churn ⟨10, .medium, []⟩ [⟨"long_wait", 1⟩] neutralContext
        (-10)).risk_level = "MEDIUM" := by
  refine ⟨?_, ?_, ?_, ?_⟩ <;>
    norm_num [calculate_churn, PATIENCE_MULTIPLIERS, FRUSTRATION_WEIGHTS, get_risk_level]

/-! ## Market Reach Estimator (`app/services/market_sizing.py`)

`MarketSizingEngine._calculate_penetration_rate` computes the penetration
rate from the frequency tier, the comment-volume tier and the severity
multiplier, capped at 0.50.  The code inlines the three tier ladders; the
spec names them `base_rate`, `comment_multiplier` and
`severity_multiplier`, so those are also defined separately to state the
refinement. -/

/-- `MarketSizingEngine._calculate_penetration_rate`, translated with the
three tier ladders inline exactly as in the source. -/
def calculate_penetration_rate (frequency : ℤ) (num_comments : ℤ)
    (severity : String) : ℚ :=
  let base_rate : ℚ :=
    if 10 ≤ frequency then 0.40
    else if 5 ≤ frequency then 0.30
    else if 3 ≤ frequency then 0.20
    else 0.10
  let comment_multiplier : ℚ :=
    if 100 ≤ num_comments then 1.2
    else if 50 ≤ num_comments then 1.1
    else if 20 ≤ num_comments then 1.0
    else 0.8
  let severity_multiplier : ℚ :=
    if severity = "High" then 1.2
    else if severity = "Medium" then 1.0
    else if severity = "Low" then 0.7
    else 1.0
  min (base_rate * comment_multiplier * severity_multiplier) 0.50

/-- The spec's `base_rate(frequency)` ladder. -/
def base_rate (frequency : ℤ) : ℚ :=
  if 10 ≤ frequency then 0.40
  else if 5 ≤ frequency then 0.30
  else if 3 ≤ frequency then 0.20
  else 0.10

/-- The spec's `comment_multiplier(comment_volume)` ladder. -/
def comment_multiplier (num_comments : ℤ) : ℚ :=
  if 100 ≤ num_comments then 1.2
  else if 50 ≤ num_comments then 1.1
  else if 20 ≤ num_comments then 1.0
  else 0.8

/-- The spec's `severity_multiplier(severity)` table with its unknown
severity default of 1.0. -/
def severity_multiplier (severity : String) : ℚ :=
  if severity = "High" then 1.2
  else if severity = "Medium" then 1.0
  else if severity = "Low" then 0.7
  else 1.0

/-- The frequency ladder is monotone. -/
theorem base_rate_mono {f g : ℤ} (h : f ≤ g) : base_rate f ≤ base_rate g := by
  unfold base_rate
  split_ifs <;> first | omega | norm_num

/-- The comment multiplier is positive. -/
theorem comment_multiplier_pos (n : ℤ) : 0 < comment_multiplier n := by
  unfold comment_multiplier
  split_ifs <;> norm_num

/-- The severity multiplier is positive. -/
theorem severity_multiplier_pos (s : String) : 0 < severity_multiplier s := by
  unfold severity_multiplier
  split_ifs <;> norm_num

/-- C7: the penetration rate equals `base_rate × comment_multiplier ×
severity_multiplier` clamped to at most 0.50, is never above 0.50, and is
monotonically non-decreasing in the frequency when the other inputs are
held fixed. -/
theorem penetration_rate_spec (frequency num_comments : ℤ) (severity : String)
    (frequency' : ℤ) :
    calculate_penetration_rate frequency num_comments severity =
      min (base_rate frequency * comment_multiplier num_comments *
        severity_multiplier severity) 0.50 ∧
    calculate_penetration_rate frequency num_comments severity ≤ 0.50 ∧
    (frequency ≤ frequency' →
      calculate_penetration_rate frequency num_comments severity ≤
        calculate_penetration_rate frequency' num_comments severity) := by
  refine ⟨rfl, min_le_right _ _, fun h => ?_⟩
  show min _ 0.50 ≤ min _ 0.50
  refine min_le_min (mul_le_mul_of_nonneg_right (mul_le_mul_of_nonneg_right
    (base_rate_mono h) (le_of_lt (comment_multiplier_pos num_comments)))
    (le_of_lt (severity_multiplier_pos severity))) le_rfl

/-- C7 witness: raising the frequency tier from 2 to 10 with comments and
severity fixed does not decrease the penetration rate. -/
theorem penetration_rate_spec_witness :
    (2 : ℤ) ≤ 10 ∧
    calculate_penetration_rate 2 50 "High" ≤ calculate_penetration_rate 10 50 "High" :=
  ⟨by decide, (penetration_rate_spec 2 50 "High" 10).2.2 (by decide)⟩

/-! ## Prioritization Engine (`app/services/prioritization_service.py`) -/

/-- `OpportunityCategory` enum from `app/models/prioritization.py`. -/
inductive OpportunityCategory where
  | underserved
  | wellserved
  | overserved
deriving DecidableEq

/-- The `OpportunityCategory(value)` enum constructor: `some` on the three
declared values, `none` (a raised `ValueError`) otherwise. -/
def categoryOfString (s : String) : Option OpportunityCategory :=
  if s = "underserved" then some .underserved
  else if s = "wellserved" then some .wellserved
  else if s = "overserved" then some .overserved
  else none

/-- `JTBDScore` response model. -/
structure JTBDScore where
  job_statement : String
  importance : ℚ
  satisfaction : ℚ
  opportunity_score : ℚ
  category : OpportunityCategory
  reasoning : String
deriving DecidableEq

/-- The fields of the JSON object parsed out of the reasoning
collaborator's JTBD reply; `none` models a missing key. -/
structure JTBDResponseData where
  job_statement : Option String
  importance : Option ℚ
  satisfaction : Option ℚ
  opportunity_score : Option ℚ
  category : Option String
  reasoning : Option String
deriving DecidableEq

/-- The fixed fallback `JTBDScore` returned when parsing fails
(`except` branch of `_calculate_jtbd_score`). -/
def jtbd_default (pain_point_desc : String) : JTBDScore :=
  { job_statement := "When users face " ++ pain_point_desc ++ ", they want a solution"
    importance := 7
    satisfaction := 3
    opportunity_score := 11
    category := .underserved
    reasoning := "Default scoring due to parsing error" }

/-- `PrioritizationService._calculate_jtbd_score`, success path: each field
is `data.get(key, default)`.  The `JTBDScore(...)` construction sits inside
the `try`, so the pydantic field validation (`importance` and
`satisfaction` are declared `ge=0, le=10` in `app/models/prioritization.py`)
and the `OpportunityCategory` enum conversion can raise there, landing in
the fallback like any other parse failure.  `opportunity_score` carries no
pydantic range constraint, and it and `category` are stored as given. -/
def calculate_jtbd_score (pain_point_desc : String) (data : JTBDResponseData) :
    JTBDScore :=
  match categoryOfString (data.category.getD "wellserved") with
  | some c =>
    if 0 ≤ data.importance.getD 5 ∧ data.importance.getD 5 ≤ 10 ∧
        0 ≤ data.satisfaction.getD 5 ∧ data.satisfaction.getD 5 ≤ 10 then
      { job_statement := data.job_statement.getD ""
        importance := data.importance.getD 5
        satisfaction := data.satisfaction.getD 5
        opportunity_score := data.opportunity_score.getD 10
        category := c
        reasoning := data.reasoning.getD "" }
    else jtbd_default pain_point_desc
  | none => jtbd_default pain_point_desc

/-- C3, counterexample: a successfully parsed response with in-range
importance 8 and satisfaction 2 whose `opportunity_score` (3) does not
equal `importance + max(importance − satisfaction, 0)` (8 + 6 = 14) and
whose stored category `underserved` does not match the score band (3 is
not > 10) is stored verbatim: the engine echoes the consistency-violating
values instead of recomputing them. -/
theorem jtbd_echoes_unvalidated_counterexample :
    (calculate_jtbd_score "X"
        ⟨some "J", some 8, some 2, some 3, some "underserved", some "R"⟩).opportunity_score
      = 3 ∧
    (calculate_jtbd_score "X"
        ⟨some "J", some 8, some 2, some 3, some "underserved", some "R"⟩).opportunity_score
      ≠ (calculate_jtbd_score "X"
          ⟨some "J", some 8, some 2, some 3, some "underserved", some "R"⟩).importance +
        max ((calculate_jtbd_score "X"
            ⟨some "J", some 8, some 2, some 3, some "underserved", some "R"⟩).importance -
          (calculate_jtbd_score "X"
            ⟨some "J", some 8, some 2, some 3, some "underserved", some "R"⟩).satisfaction)
          0 ∧
    (calculate_jtbd_score "X"
        ⟨some "J", some 8, some 2, some 3, some "underserved", some "R"⟩).category
      = .underserved ∧
    ¬ (10 < (calculate_jtbd_score "X"
        ⟨some "J", some 8, some 2, some 3, some "underserved", some "R"⟩).opportunity_score) := by
  have heq : calculate_jtbd_score "X"
      ⟨some "J", some 8, some 2, some 3, some "underserved", some "R"⟩ =
      ⟨"J", 8, 2, 3, .underserved, "R"⟩ := by
    unfold calculate_jtbd_score
    norm_num [categoryOfString]
  refine ⟨by rw [heq], by rw [heq]; norm_num, by rw [heq], by rw [heq]; norm_num⟩

/-- C3, amended: on a successfully parsed response whose importance and
satisfaction pass the pydantic bounds [0, 10], the engine stores the
collaborator's `opportunity_score` and `category` verbatim, with no
recomputation and no consistency check; an out-of-range importance (or
satisfaction, or an out-of-enum category) raises inside the `try` and
yields the fallback like any parse failure.  The consistency property
`opportunity_score = importance + max(importance − satisfaction, 0)` with
a matching category band is guaranteed only for that fallback (7, 3 ⇒ 11,
underserved). -/
theorem jtbd_echo_and_fallback (desc js cs r : String) (i s o : ℚ)
    (c : OpportunityCategory) (hc : categoryOfString cs = some c)
    (hi0 : 0 ≤ i) (hi10 : i ≤ 10) (hs0 : 0 ≤ s) (hs10 : s ≤ 10) :
    calculate_jtbd_score desc ⟨some js, some i, some s, some o, some cs, some r⟩ =
      ⟨js, i, s, o, c, r⟩ ∧
    (jtbd_default desc).opportunity_score =
      (jtbd_default desc).importance +
        max ((jtbd_default desc).importance - (jtbd_default desc).satisfaction) 0 ∧
    ((jtbd_default desc).category = .underserved ↔
      10 < (jtbd_default desc).opportunity_score) ∧
    (∀ i2 : ℚ, ¬ (0 ≤ i2 ∧ i2 ≤ 10) →
      calculate_jtbd_score desc ⟨some js, some i2, some s, some o, some cs, some r⟩ =
        jtbd_default desc) := by
  refine ⟨?_, by norm_num [jtbd_default], by norm_num [jtbd_default], ?_⟩
  · unfold calculate_jtbd_score
    simp only [Option.getD_some, hc]
    rw [if_pos ⟨hi0, hi10, hs0, hs10⟩]
  · intro i2 hni2
    unfold calculate_jtbd_score
    simp only [Option.getD_some, hc]
    rw [if_neg (fun hcond => hni2 ⟨hcond.1, hcond.2.1⟩)]

/-- C3 witness: the amended statement applied to a concrete parsed
response carrying category string "overserved" and in-range scores, plus
the fallback at the out-of-range importance 15. -/
theorem jtbd_echo_and_fallback_witness :
    categoryOfString "overserved" = some .overserved ∧
    (0 : ℚ) ≤ 4 ∧ (4 : ℚ) ≤ 10 ∧ (0 : ℚ) ≤ 9 ∧ (9 : ℚ) ≤ 10 ∧
    (calculate_jtbd_score "D" ⟨some "J", some 4, some 9, some 4, some "overserved", some "R"⟩ =
      ⟨"J", 4, 9, 4, .overserved, "R"⟩) ∧
    ¬ ((0 : ℚ) ≤ 15 ∧ (15 : ℚ) ≤ 10) ∧
    calculate_jtbd_score "D" ⟨some "J", some 15, some 9, some 4, some "overserved", some "R"⟩ =
      jtbd_default "D" :=
  ⟨rfl, by decide, by decide, by decide, by decide,
    (jtbd_echo_and_fallback "D" "J" "overserved" "R" 4 9 4 .overserved rfl
      (by decide) (by decide) (by decide) (by decide)).1,
    by decide,
    (jtbd_echo_and_fallback "D" "J" "overserved" "R" 4 9 4 .overserved rfl
      (by decide) (by decide) (by decide) (by decide)).2.2.2 15 (by decide)⟩

/-- Embedding of Python `round(x, 2)`.  Which half-way convention `round`
uses is immaterial here: both sides of the C5 refinement go through the
same function. -/
noncomputable def round2 (x : ℝ) : ℝ := (round (x * 100) : ℝ) / 100

/-- `PrioritizationService._calculate_final_score`, translated with the
code's three intermediate normalizations: `opportunity_score / 20 * 100`,
`min(log10(max(rice_score, 1)) * 20, 100)` and `weight / 10 * 100`,
blended 0.4/0.4/0.2 and rounded to two decimals. -/
noncomputable def calculate_final_score (opportunity_score rice_score weight : ℝ) : ℝ :=
  let jtbd_normalized := opportunity_score / 20 * 100
  let rice_normalized := min (Real.logb 10 (max rice_score 1) * 20) 100
  let persona_normalized := weight / 10 * 100
  round2 (jtbd_normalized * 0.4 + rice_normalized * 0.4 + persona_normalized * 0.2)

/-- The spec's final-score formula, written exactly as §4.2 states it. -/
noncomputable def final_score_spec (opportunity_score rice_score weight : ℝ) : ℝ :=
  round2 (0.4 * (opportunity_score / 20 * 100) +
    0.4 * min (Real.logb 10 (max rice_score 1) * 20) 100 +
    0.2 * (weight / 10 * 100))

/-- C5: the engine's final score coincides with the spec's formula
`0.4 × (opportunity_score/20×100) + 0.4 × min(log10(max(rice_score,1))×20, 100)
+ 0.2 × (weight/10×100)`, rounded to 2 decimal places. -/
theorem final_score_refines_spec (opportunity_score rice_score weight : ℝ) :
    calculate_final_score opportunity_score rice_score weight =
      final_score_spec opportunity_score rice_score weight := by
  unfold calculate_final_score final_score_spec
  ring_nf

/-- The fixed list of "blocking" quote terms checked by
`_estimate_impact` (apostrophe written as an escape). -/
def blocking_words : List String :=
  ["can\x27t", "unable", "impossible", "blocks", "prevents", "stuck"]

/-- `PrioritizationService._estimate_impact`: severity base × importance
multiplier × quote-intensity multiplier, clamped into [0.25, 3.0]. -/
def estimate_impact (severity : String) (importance : ℚ) (quote : String) : ℚ :=
  let base_impact : ℚ :=
    if severity = "High" then 2
    else if severity = "Medium" then 1
    else if severity = "Low" then 0.5
    else 1
  let importance_multiplier : ℚ :=
    if 9 ≤ importance then 1.5
    else if 7 ≤ importance then 1.2
    else 1
  let quote_multiplier : ℚ :=
    if blocking_words.any (fun word => strContainsSub (toLowerStr quote) word) then 1.2
    else 1
  min (max (base_impact * importance_multiplier * quote_multiplier) 0.25) 3.0

/-- The RICE division guard of `_calculate_rice_score`:
`(reach * impact * confidence) / effort if effort > 0 else 0`. -/
def rice_score_of (reach impact confidence effort : ℚ) : ℚ :=
  if 0 < effort then reach * impact * confidence / effort else 0

/-- C8: the estimated impact always lies in [0.25, 3.0], and the RICE
score is 0 whenever the effort is non-positive (the guarded division never
runs) and `reach × impact × confidence / effort` when the effort is
positive. -/
theorem impact_clamped_and_rice_guarded (severity : String) (importance : ℚ)
    (quote : String) (reach impact confidence effort : ℚ) :
    (0.25 ≤ estimate_impact severity importance quote ∧
      estimate_impact severity importance quote ≤ 3.0) ∧
    ((effort ≤ 0 ∧ rice_score_of reach impact confidence effort = 0) ∨
      (0 < effort ∧ rice_score_of reach impact confidence effort =
        reach * impact * confidence / effort)) := by
  constructor
  · refine ⟨le_min (le_max_right _ _) (by norm_num), min_le_right _ _⟩
  · rcases lt_or_le 0 effort with h | h
    · exact Or.inr ⟨h, if_pos h⟩
    · exact Or.inl ⟨h, if_neg (not_lt.mpr h)⟩

/-! ## Ranking step of `PrioritizationService.prioritize_pain_points`

The service builds one `PrioritizedPainPoint` per input pain point, in
input order (each is scored independently), then sorts the list by
`final_score` descending with Python's stable `list.sort(key=...,
reverse=True)` and assigns `priority_rank` 1..N by enumeration.  The
records are embedded by the fields the ranking step reads or writes: the
input position (`idx`, standing for the `pp_{idx}` id), the final score
and the rank; Python's stable descending sort is embedded as insertion
sort with the ≥-on-score relation. -/

/-- The ranked record: input index, final score, assigned rank. -/
structure PrioritizedPainPoint where
  idx : ℕ
  final_score : ℚ
  priority_rank : ℕ
deriving DecidableEq

/-- Sort relation of `prioritized.sort(key=lambda x: x.final_score,
reverse=True)`: earlier records have scores ≥ later ones. -/
def scoreGE (a b : PrioritizedPainPoint) : Prop :=
  b.final_score ≤ a.final_score

instance : DecidableRel scoreGE :=
  fun a b => inferInstanceAs (Decidable (b.final_score ≤ a.final_score))

instance : IsTotal PrioritizedPainPoint scoreGE :=
  ⟨fun a b => le_total b.final_score a.final_score⟩

instance : IsTrans PrioritizedPainPoint scoreGE :=
  ⟨fun _ _ _ h1 h2 => le_trans h2 h1⟩

/-- `for rank, pp in enumerate(prioritized, 1): pp.priority_rank = rank`. -/
def assignRanks : ℕ → List PrioritizedPainPoint → List PrioritizedPainPoint
  | _, [] => []
  | n, p :: ps => { p with priority_rank := n } :: assignRanks (n + 1) ps

/-- The deterministic tail of `prioritize_pain_points`: the empty-input
guard, the stable descending sort, and rank assignment. -/
def prioritize_rank (pain_points : List PrioritizedPainPoint) :
    List PrioritizedPainPoint :=
  if pain_points = [] then []
  else assignRanks 1 (List.insertionSort scoreGE pain_points)

/-- Identity-plus-score projection used to state sort stability (the rank
field is the one the ranking step overwrites). -/
def ppProj (p : PrioritizedPainPoint) : ℕ × ℚ := (p.idx, p.final_score)

theorem assignRanks_map_rank (n : ℕ) (s : List PrioritizedPainPoint) :
    (assignRanks n s).map (fun p => p.priority_rank) = List.range' n s.length := by
  induction s generalizing n with
  | nil => rfl
  | cons p ps ih => simp [assignRanks, List.range', ih]

theorem assignRanks_map_proj (n : ℕ) (s : List PrioritizedPainPoint) :
    (assignRanks n s).map ppProj = s.map ppProj := by
  induction s generalizing n with
  | nil => rfl
  | cons p ps ih => simp [assignRanks, ppProj, ih]

theorem assignRanks_map_score (n : ℕ) (s : List PrioritizedPainPoint) :
    (assignRanks n s).map (fun p => p.final_score) = s.map (fun p => p.final_score) := by
  induction s generalizing n with
  | nil => rfl
  | cons p ps ih => simp [assignRanks, ih]

/-- Key stability fact: inserting `a` into `l` with the strict-skip
relation `scoreGE` does not change the filtered subsequence at any fixed
score, because every record `a` is inserted behind has a strictly larger
score. -/
theorem filter_score_orderedInsert (q : ℚ) (a : PrioritizedPainPoint)
    (l : List PrioritizedPainPoint) :
    (List.orderedInsert scoreGE a l).filter (fun x => decide (x.final_score = q)) =
      (a :: l).filter (fun x => decide (x.final_score = q)) := by
  induction l with
  | nil => rfl
  | cons b t ih =>
    by_cases hab : scoreGE a b
    · simp [List.orderedInsert, hab]
    · have hlt : a.final_score < b.final_score := not_le.mp hab
      by_cases hb : b.final_score = q
      · by_cases ha : a.final_score = q
        · exact absurd (ha.trans hb.symm) (ne_of_lt hlt)
        · simp [List.orderedInsert, hab, List.filter_cons, hb, ha, ih]
      · by_cases ha : a.final_score = q
        · simp [List.orderedInsert, hab, List.filter_cons, hb, ha, ih]
        · simp [List.orderedInsert, hab, List.filter_cons, hb, ha, ih]

theorem filter_score_insertionSort (q : ℚ) (l : List PrioritizedPainPoint) :
    (List.insertionSort scoreGE l).filter (fun x => decide (x.final_score = q)) =
      l.filter (fun x => decide (x.final_score = q)) := by
  induction l with
  | nil => rfl
  | cons a t ih =>
    simp only [List.insertionSort, filter_score_orderedInsert, List.filter_cons, ih]

theorem pairwise_scoreGE_assignRanks (n : ℕ) (s : List PrioritizedPainPoint)
    (h : List.Pairwise scoreGE s) : List.Pairwise scoreGE (assignRanks n s) := by
  have hmap : List.Pairwise (fun a b : ℚ => b ≤ a)
      ((assignRanks n s).map (fun p => p.final_score)) := by
    rw [assignRanks_map_score]
    exact List.pairwise_map.mpr h
  exact (List.pairwise_map (f := fun p : PrioritizedPainPoint => p.final_score)).mp hmap

/-- C9: ranking returns the records sorted by final score descending with
ranks 1..N, rank 1 carrying a maximal score; records with equal final
scores keep their input order (the filtered subsequence at any score is
unchanged); and an empty input yields an empty output. -/
theorem prioritize_sorts_ranks_stably :
    prioritize_rank [] = [] ∧
    ∀ l : List PrioritizedPainPoint,
      (prioritize_rank l).map (fun p => p.priority_rank) = List.range' 1 l.length ∧
      List.Pairwise scoreGE (prioritize_rank l) ∧
      (∀ p1, (prioritize_rank l).head? = some p1 →
        ∀ p ∈ l, p.final_score ≤ p1.final_score) ∧
      (∀ q : ℚ, ((prioritize_rank l).map ppProj).filter (fun x => decide (x.2 = q)) =
        (l.map ppProj).filter (fun x => decide (x.2 = q))) := by
  refine ⟨rfl, fun l => ?_⟩
  by_cases hl : l = []
  · subst hl
    exact ⟨rfl, List.Pairwise.nil, fun p1 h => by simp [prioritize_rank] at h,
      fun q => rfl⟩
  · have hsorted : List.Sorted scoreGE (List.insertionSort scoreGE l) :=
      List.sorted_insertionSort scoreGE l
    refine ⟨?_, ?_, ?_, ?_⟩
    · rw [prioritize_rank, if_neg hl, assignRanks_map_rank, List.length_insertionSort]
    · rw [prioritize_rank, if_neg hl]
      exact pairwise_scoreGE_assignRanks 1 _ hsorted
    · intro p1 hp1 p hp
      rw [prioritize_rank, if_neg hl] at hp1
      have hps : p ∈ List.insertionSort scoreGE l :=
        (List.perm_insertionSort scoreGE l).mem_iff.mpr hp
      cases hs : List.insertionSort scoreGE l with
      | nil => rw [hs] at hps; simp at hps
      | cons a t =>
        rw [hs] at hp1
        have hp1' : p1 = { a with priority_rank := 1 } := by
          simpa [assignRanks] using hp1.symm
        rw [hs] at hps hsorted
        have hrel := List.rel_of_sorted_cons hsorted
        rcases List.mem_cons.mp hps with rfl | hmem
        · rw [hp1']
        · rw [hp1']
          exact hrel p hmem
    · intro q
      rw [prioritize_rank, if_neg hl, assignRanks_map_proj, List.filter_map,
        List.filter_map]
      have : ((fun x : ℕ × ℚ => decide (x.2 = q)) ∘ ppProj) =
          (fun x => decide (x.final_score = q)) := rfl
      rw [this, filter_score_insertionSort]

/-- C9 witness: on the concrete input `[(id 0, score 5), (id 1, score 7),
(id 2, score 5)]` the head of the ranked output is record 1 with rank 1,
and its score dominates record 0's. -/
theorem prioritize_sorts_ranks_stably_witness :
    (prioritize_rank [⟨0, 5, 0⟩, ⟨1, 7, 0⟩, ⟨2, 5, 0⟩]).head? = some ⟨1, 7, 1⟩ ∧
    (⟨0, 5, 0⟩ : PrioritizedPainPoint) ∈
      ([⟨0, 5, 0⟩, ⟨1, 7, 0⟩, ⟨2, 5, 0⟩] : List PrioritizedPainPoint) ∧
    (⟨0, 5, 0⟩ : PrioritizedPainPoint).final_score ≤
      (⟨1, 7, 1⟩ : PrioritizedPainPoint).final_score :=
  ⟨by decide, by decide,
    (prioritize_sorts_ranks_stably.2 [⟨0, 5, 0⟩, ⟨1, 7, 0⟩, ⟨2, 5, 0⟩]).2.2.1
      ⟨1, 7, 1⟩ (by decide) ⟨0, 5, 0⟩ (by decide)⟩

/-! ## Persona alignment (`PrioritizationService._calculate_persona_alignment`)

The affinities mapping is a Python dict keyed by the persona's name
(`persona.get('name', 'Unknown')`), so it is embedded as an
insertion-ordered association list with insert-or-update semantics:
two personas resolving to the same name collapse to one entry. -/

/-- The persona fields read by `_calculate_persona_alignment`; `name` is
`None`-able to model a missing `'name'` key. -/
structure Persona where
  name : Option String
  pain_points : List String
  behaviors : List String
  goals : List String
deriving DecidableEq

/-- `PersonaAlignment` response model; `affinities` is the
insertion-ordered dict persona-name → affinity label. -/
structure PersonaAlignment where
  affected_personas : List String
  coverage : ℚ
  affinities : List (String × String)
  weight : ℚ
deriving DecidableEq

/-- The `affinity_scores` table with its `.get(aff, 0)` default. -/
def affinity_scores (aff : String) : ℚ :=
  if aff = "VERY HIGH" then 10
  else if aff = "HIGH" then 7
  else if aff = "MEDIUM" then 4
  else if aff = "LOW" then 1
  else 0

/-- `persona.get('name', 'Unknown')`. -/
def resolvedName (p : Persona) : String := p.name.getD "Unknown"

/-- The match-count loop: one hit per declared persona pain point whose
first five lowered words contain a substring of the lowered description. -/
def matchCount (description_lower : String) (p : Persona) : ℕ :=
  (p.pain_points.filter (fun pp =>
    ((splitWords (toLowerStr pp)).take 5).any
      (fun word => strContainsSub description_lower word))).length

/-- The affinity ladder: ≥2 matches ⇒ VERY HIGH, ≥1 ⇒ HIGH, otherwise
MEDIUM when any of the description's first five words occurs in the
persona's joined behaviors or goals text, else LOW. -/
def affinityFor (description_lower : String) (p : Persona) : String :=
  if 2 ≤ matchCount description_lower p then "VERY HIGH"
  else if 1 ≤ matchCount description_lower p then "HIGH"
  else
    if ((splitWords description_lower).take 5).any
        (fun word => strContainsSub (toLowerStr (String.intercalate " " p.behaviors)) word ||
          strContainsSub (toLowerStr (String.intercalate " " p.goals)) word) then "MEDIUM"
    else "LOW"

/-- Python dict assignment `affinities[persona_name] = affinity`:
update in place when the key exists, append otherwise. -/
def dictInsert (k v : String) (d : List (String × String)) : List (String × String) :=
  if k ∈ d.map Prod.fst then d.map (fun kv => if kv.1 = k then (k, v) else kv)
  else d ++ [(k, v)]

/-- One iteration of the `for persona in personas` loop: compute the
affinity, extend `affected` unless the affinity is LOW, and assign into
the affinities dict. -/
def alignStep (description_lower : String)
    (acc : List String × List (String × String)) (p : Persona) :
    List String × List (String × String) :=
  (if affinityFor description_lower p = "LOW" then acc.1
    else acc.1 ++ [resolvedName p],
   dictInsert (resolvedName p) (affinityFor description_lower p) acc.2)

/-- `PrioritizationService._calculate_persona_alignment`: empty personas
give the all-zero alignment; otherwise coverage is
`len(affected)/len(personas)` and the weight is the sum of the affinity
scores over the dict values divided by `len(personas)`. -/
def calculate_persona_alignment (description : String) (personas : List Persona) :
    PersonaAlignment :=
  if personas = [] then ⟨[], 0, [], 0⟩
  else
    ⟨(personas.foldl (alignStep (toLowerStr description)) ([], [])).1,
      (((personas.foldl (alignStep (toLowerStr description)) ([], [])).1.length : ℚ)) /
        ((personas.length : ℕ) : ℚ),
      (personas.foldl (alignStep (toLowerStr description)) ([], [])).2,
      ((personas.foldl (alignStep (toLowerStr description)) ([], [])).2.map
          (fun kv => affinity_scores kv.2)).sum /
        ((personas.length : ℕ) : ℚ)⟩

/-- Every affinity the ladder can return scores between 1 (LOW) and 10
(VERY HIGH). -/
theorem affinityFor_score_bounds (dl : String) (p : Persona) :
    1 ≤ affinity_scores (affinityFor dl p) ∧
      affinity_scores (affinityFor dl p) ≤ 10 := by
  unfold affinityFor
  split_ifs <;> exact ⟨by decide, by decide⟩

theorem dictInsert_keys_of_mem (k v : String) (d : List (String × String))
    (h : k ∈ d.map Prod.fst) :
    (dictInsert k v d).map Prod.fst = d.map Prod.fst := by
  unfold dictInsert
  rw [if_pos h, List.map_map]
  refine List.map_congr_left ?_
  intro kv _
  by_cases hk : kv.1 = k
  · simp [Function.comp, hk]
  · simp [Function.comp, hk]

theorem dictInsert_keys_of_not_mem (k v : String) (d : List (String × String))
    (h : k ∉ d.map Prod.fst) :
    (dictInsert k v d).map Prod.fst = d.map Prod.fst ++ [k] := by
  unfold dictInsert
  rw [if_neg h, List.map_append]
  rfl

theorem dictInsert_values_subset (k v : String) (d : List (String × String)) :
    ∀ x ∈ (dictInsert k v d).map Prod.snd, x ∈ d.map Prod.snd ∨ x = v := by
  unfold dictInsert
  split_ifs with h
  · intro x hx
    rw [List.map_map] at hx
    rcases List.mem_map.mp hx with ⟨kv, hkv, heq⟩
    by_cases hk : kv.1 = k
    · right
      rw [← heq]
      simp [Function.comp, hk]
    · left
      have : (Prod.snd ∘ fun kv : String × String =>
          if kv.1 = k then (k, v) else kv) kv = kv.2 := by simp [Function.comp, hk]
      rw [← heq, this]
      exact List.mem_map_of_mem Prod.snd hkv
  · intro x hx
    rw [List.map_append] at hx
    rcases List.mem_append.mp hx with h1 | h2
    · exact Or.inl h1
    · right
      simpa using h2

/-- With pairwise-distinct resolved names that avoid the keys already in
the accumulator, the loop appends exactly one dict entry per persona. -/
theorem foldl_alignStep_keys (dl : String) (ps : List Persona) :
    ∀ acc : List String × List (String × String),
      (ps.map resolvedName).Nodup →
      (∀ p ∈ ps, resolvedName p ∉ acc.2.map Prod.fst) →
      (ps.foldl (alignStep dl) acc).2.map Prod.fst =
        acc.2.map Prod.fst ++ ps.map resolvedName := by
  induction ps with
  | nil => intro acc _ _; simp
  | cons p ps ih =>
    intro acc hnodup hdisj
    rw [List.foldl_cons]
    have hkeys : (alignStep dl acc p).2.map Prod.fst =
        acc.2.map Prod.fst ++ [resolvedName p] :=
      dictInsert_keys_of_not_mem _ _ _ (hdisj p (List.mem_cons_self p ps))
    have hnodup' : (ps.map resolvedName).Nodup :=
      (List.nodup_cons.mp (by simpa using hnodup)).2
    have hhead : resolvedName p ∉ ps.map resolvedName :=
      (List.nodup_cons.mp (by simpa using hnodup)).1
    have hdisj' : ∀ p2 ∈ ps, resolvedName p2 ∉ (alignStep dl acc p).2.map Prod.fst := by
      intro p2 hp2
      rw [hkeys]
      intro hmem
      rcases List.mem_append.mp hmem with h1 | h2
      · exact hdisj p2 (List.mem_cons_of_mem p hp2) h1
      · have heq : resolvedName p2 = resolvedName p := by simpa using h2
        exact hhead (heq ▸ List.mem_map_of_mem resolvedName hp2)
    rw [ih (alignStep dl acc p) hnodup' hdisj', hkeys]
    simp

/-- Every value stored in the affinities dict by the loop is an affinity
label scoring in [1, 10]. -/
theorem foldl_alignStep_values (dl : String) (ps : List Persona) :
    ∀ acc : List String × List (String × String),
      (∀ x ∈ acc.2.map Prod.snd, 1 ≤ affinity_scores x ∧ affinity_scores x ≤ 10) →
      ∀ x ∈ (ps.foldl (alignStep dl) acc).2.map Prod.snd,
        1 ≤ affinity_scores x ∧ affinity_scores x ≤ 10 := by
  induction ps with
  | nil => intro acc hacc; simpa using hacc
  | cons p ps ih =>
    intro acc hacc
    rw [List.foldl_cons]
    refine ih _ ?_
    intro x hx
    rcases dictInsert_values_subset (resolvedName p) (affinityFor dl p) acc.2 x hx
      with h1 | h2
    · exact hacc x h1
    · rw [h2]
      exact affinityFor_score_bounds dl p

/-- C10, amended: when the resolved persona names are pairwise distinct,
every persona contributes one dict entry scoring at least LOW = 1, so the
alignment weight of a non-empty personas list lies in [1, 10]. -/
theorem persona_alignment_weight_bounds (personas : List Persona) (description : String)
    (hne : personas ≠ []) (hnodup : (personas.map resolvedName).Nodup) :
    1 ≤ (calculate_persona_alignment description personas).weight ∧
      (calculate_persona_alignment description personas).weight ≤ 10 := by
  have hw : (calculate_persona_alignment description personas).weight =
      ((personas.foldl (alignStep (toLowerStr description)) ([], [])).2.map
          (fun kv => affinity_scores kv.2)).sum / ((personas.length : ℕ) : ℚ) := by
    simp [calculate_persona_alignment, hne]
  have hkeys := foldl_alignStep_keys (toLowerStr description) personas ([], []) hnodup
    (by intro p _ h; simp at h)
  have hlen : (personas.foldl (alignStep (toLowerStr description)) ([], [])).2.length =
      personas.length := by
    have h := congrArg List.length hkeys
    simpa using h
  have hvals := foldl_alignStep_values (toLowerStr description) personas ([], [])
    (by intro x hx; simp at hx)
  have hbound : ∀ x ∈ (personas.foldl (alignStep (toLowerStr description)) ([], [])).2.map
      (fun kv => affinity_scores kv.2), 1 ≤ x ∧ x ≤ 10 := by
    intro x hx
    rcases List.mem_map.mp hx with ⟨kv, hkv, rfl⟩
    exact hvals kv.2 (List.mem_map_of_mem Prod.snd hkv)
  have hLlen : ((personas.foldl (alignStep (toLowerStr description)) ([], [])).2.map
      (fun kv => affinity_scores kv.2)).length = personas.length := by
    rw [List.length_map, hlen]
  have hnpos : (0 : ℚ) < ((personas.length : ℕ) : ℚ) := by
    have h := List.length_pos.mpr hne
    exact_mod_cast h
  constructor
  · rw [hw, one_le_div hnpos]
    have h := List.card_nsmul_le_sum
      ((personas.foldl (alignStep (toLowerStr description)) ([], [])).2.map
        (fun kv => affinity_scores kv.2)) (1 : ℚ) (fun x hx => (hbound x hx).1)
    rw [nsmul_eq_mul, mul_one, hLlen] at h
    exact h
  · rw [hw, div_le_iff₀ hnpos]
    have h := List.sum_le_card_nsmul
      ((personas.foldl (alignStep (toLowerStr description)) ([], [])).2.map
        (fun kv => affinity_scores kv.2)) (10 : ℚ) (fun x hx => (hbound x hx).2)
    rw [nsmul_eq_mul, hLlen] at h
    calc ((personas.foldl (alignStep (toLowerStr description)) ([], [])).2.map
        (fun kv => affinity_scores kv.2)).sum ≤ ((personas.length : ℕ) : ℚ) * 10 := h
    _ = 10 * ((personas.length : ℕ) : ℚ) := mul_comm _ _

/-- Two personas both missing the `name` key, so both resolving to
"Unknown". -/
def dupPersonas : List Persona := [⟨none, [], [], []⟩, ⟨none, [], [], []⟩]

/-- C10, counterexample: with two unnamed personas the affinities dict
collapses to the single key "Unknown" with affinity LOW, so the weight is
1/2 — below the claimed lower bound of 1. -/
theorem persona_weight_below_one_counterexample :
    (calculate_persona_alignment "" dupPersonas).weight = 1 / 2 ∧
    ¬ (1 ≤ (calculate_persona_alignment "" dupPersonas).weight) := by
  have hne : dupPersonas ≠ [] := by decide
  have hfold : (dupPersonas.foldl (alignStep (toLowerStr "")) ([], [])).2 =
      [("Unknown", "LOW")] := by decide
  have hA : affinity_scores "LOW" = 1 := by decide
  have hw : (calculate_persona_alignment "" dupPersonas).weight =
      ((dupPersonas.foldl (alignStep (toLowerStr "")) ([], [])).2.map
          (fun kv => affinity_scores kv.2)).sum / ((dupPersonas.length : ℕ) : ℚ) := by
    simp [calculate_persona_alignment, hne]
  rw [hw, hfold]
  simp only [List.map_cons, List.map_nil, List.sum_cons, List.sum_nil, hA]
  norm_num [dupPersonas]

/-- One named persona for the C10 witness. -/
def singlePersona : List Persona := [⟨some "A", [], [], []⟩]

/-- C10 witness: the amended bound applied to one concrete named
persona. -/
theorem persona_alignment_weight_bounds_witness :
    singlePersona ≠ [] ∧ (singlePersona.map resolvedName).Nodup ∧
    (1 ≤ (calculate_persona_alignment "" singlePersona).weight ∧
      (calculate_persona_alignment "" singlePersona).weight ≤ 10) :=
  ⟨by decide, by decide,
    persona_alignment_weight_bounds singlePersona "" (by decide) (by decide)⟩
